import Mathlib

/-!
Verification of the capture-and-reporting pipeline of the ai-context-reporter
repository against its natural-language specification.

The development shallowly embeds the JavaScript source:

* JavaScript runtime values are modelled by `JSValue`; object and array
  structure lives in an explicit heap (`Heap : Nat → HeapObj`) so that
  self-referential (cyclic) object graphs are representable — exactly the
  inputs the sanitizer's depth bound is claimed to defend against.
* `sanitizeValue` / `sanitizeObject` embed the pair of functions from
  `chrome-extension/lib/constants.js` (lines 88-131 and 142-166); the Safari
  copy in `shared-utils.js` is character-for-character the same algorithm.
  JavaScript strings are modelled as Lean strings (sequences of characters);
  `value.substring(0, n)` becomes a take of the first `n` characters and
  `value.length` the character count.  JavaScript numbers appearing as data
  values are modelled as integers (no claim under verification depends on
  float behaviour).  `Date`, `RegExp` and `Error` values carry the string
  the source would extract from them (`toISOString`, `toString`, `message`).
  A property read that throws (framework getters) is modelled by
  `PropVal.throws`.
* The depth parameter is an integer, as in the source (`depth <= 0` is the
  stop test and `depth - 1` the decrement); recursion is realised over the
  fuel `depth.toNat`, which is a faithful reindexing because `depth <= 0`
  iff `depth.toNat = 0` and `(depth-1).toNat = depth.toNat - 1` for
  positive `depth`.  Totality of the Lean function for every heap —
  including cyclic ones — is the termination property of the spec.
-/

/-- A JavaScript runtime value.  Compound values (`Array`, plain object)
are references into a heap, so cyclic graphs are expressible. -/
inductive JSValue : Type where
  | vNull
  | vUndefined
  | vStr (s : String)
  | vNum (n : Int)
  | vBool (b : Bool)
  | vFunc (name : String)
  | vDate (iso : String)
  | vRegExp (form : String)
  | vError (msg : String)
  | vElem (tagName : String)
  | vRef (addr : Nat)

/-- JavaScript property value as read by `obj[key]`: either an ordinary
value or a getter that throws (caught per-key by `sanitizeObject`). -/
inductive PropVal : Type where
  | val (v : JSValue)
  | throws

/-- A heap cell: an array of values or a plain object given by its
`Object.keys` enumeration (key, property) list in enumeration order. -/
inductive HeapObj : Type where
  | arr (elems : List JSValue)
  | obj (fields : List (String × PropVal))

/-- The JavaScript heap.  Every address holds a cell; cycles arise when a
cell's fields reference its own address. -/
def Heap : Type := Nat → HeapObj

/-- Sanitized output values: finite JSON-like trees.  Object entries are
kept in insertion order. -/
inductive SValue : Type where
  | sNull
  | sUndefined
  | sStr (s : String)
  | sNum (n : Int)
  | sBool (b : Bool)
  | sArr (elems : List SValue)
  | sObj (fields : List (String × SValue))

-- Constants from chrome-extension/lib/constants.js.
def MAX_OBJECT_DEPTH : Int := 3
def MAX_OBJECT_KEYS : Nat := 20
def MAX_ARRAY_LENGTH : Nat := 10
def MAX_STRING_LENGTH : Nat := 200

/-- The string branch of `sanitizeValue`:
`value.length > maxStringLength ? value.substring(0, maxStringLength) + '...' : value`. -/
def truncateStr (maxStringLength : Nat) (s : String) : String :=
  if s.length > maxStringLength then String.mk (s.data.take maxStringLength) ++ "..." else s

/-- JavaScript `s.startsWith(pre)` on the character-sequence model of
strings (structural, so concrete instances reduce definitionally). -/
def strStartsWith (s pre : String) : Bool :=
  pre.data.isPrefixOf s.data

/-- JavaScript `s.toLowerCase()` on the character-sequence model. -/
def strToLower (s : String) : String :=
  String.mk (s.data.map Char.toLower)

/-- The `'[Function: ' + (value.name || 'anonymous') + ']'` branch. -/
def functionPlaceholder (name : String) : String :=
  "[Function: " ++ (if name = "" then "anonymous" else name) ++ "]"

/-- Body of `sanitizeObject` minus the depth guard: cap the keys at
`MAX_OBJECT_KEYS` (inserting the `"..."` counter key first, as the source's
assignment order does), then drop `__`/`$$`-prefixed keys and sanitize each
surviving property with `f` (a property read that throws yields
`"[Error reading property]"`). -/
def sanitizeEntries (f : JSValue → SValue) (fields : List (String × PropVal)) :
    List (String × SValue) :=
  (if fields.length > MAX_OBJECT_KEYS then
    [("...", SValue.sStr ("(" ++ toString (fields.length - MAX_OBJECT_KEYS) ++ " more keys)"))]
  else []) ++
  (fields.take MAX_OBJECT_KEYS).filterMap (fun kv =>
    if strStartsWith kv.1 "__" || strStartsWith kv.1 "$$" then none
    else some (kv.1, match kv.2 with
      | .val w => f w
      | .throws => SValue.sStr "[Error reading property]"))

/-- Fuel-indexed core of `sanitizeValue` (constants.js lines 88-131).  The
fuel is `depth.toNat`; fuel `0` is the `depth <= 0` branch.  The object case
inlines `sanitizeObject` called at `depth - 1`, whose per-key recursion runs
at that same decremented depth. -/
def sanitizeValueGo (h : Heap) (m : Nat) : Nat → JSValue → SValue
  | 0, _ => .sStr "[max depth]"
  | Nat.succ k, v =>
    match v with
    | .vNull => .sNull
    | .vUndefined => .sUndefined
    | .vStr s => .sStr (truncateStr m s)
    | .vNum n => .sNum n
    | .vBool b => .sBool b
    | .vFunc name => .sStr (functionPlaceholder name)
    | .vDate iso => .sStr iso
    | .vRegExp form => .sStr form
    | .vError msg => .sStr ("[Error: " ++ msg ++ "]")
    | .vElem tagName => .sStr ("[Element: " ++ strToLower tagName ++ "]")
    | .vRef a =>
      match h a with
      | .arr elems =>
        if elems.length > MAX_ARRAY_LENGTH then
          .sStr ("[Array(" ++ toString elems.length ++ ")]")
        else
          .sArr ((elems.take MAX_ARRAY_LENGTH).map (fun e => sanitizeValueGo h m k e))
      | .obj fields =>
        if k = 0 then .sStr "[max depth]"
        else .sObj (sanitizeEntries (fun w => sanitizeValueGo h m k w) fields)

/-- `sanitizeValue(value, depth, maxStringLength)` from
chrome-extension/lib/constants.js lines 88-131 (identical in the Safari
`shared-utils.js` copy).  `h` is the heap the value's references point into. -/
def sanitizeValue (h : Heap) (v : JSValue) (depth : Int) (maxStringLength : Nat) : SValue :=
  sanitizeValueGo h maxStringLength depth.toNat v

/-- `sanitizeObject(obj, depth, maxStringLength)` from
chrome-extension/lib/constants.js lines 142-166, applied to an object's
field list: depth guard, key cap with `"..."` counter, `__`/`$$` filter,
per-key `sanitizeValue` at the same depth with throw protection. -/
def sanitizeObject (h : Heap) (fields : List (String × PropVal)) (depth : Int)
    (maxStringLength : Nat) : SValue :=
  if depth ≤ 0 then .sStr "[max depth]"
  else .sObj (sanitizeEntries (fun w => sanitizeValueGo h maxStringLength depth.toNat w) fields)

/-- Sanity link between the embedding's two functions, mirroring the source:
on an object reference, `sanitizeValue` at depth `d` is `sanitizeObject` at
depth `d - 1`. -/
theorem sanitizeValue_ref_obj (h : Heap) (a : Nat) (fields : List (String × PropVal))
    (d : Int) (m : Nat) (hobj : h a = .obj fields) :
    sanitizeValue h (.vRef a) d m = sanitizeObject h fields (d - 1) m := by
  unfold sanitizeValue sanitizeObject
  rcases hk : d.toNat with _ | k
  · have hd1 : d ≤ 1 := by omega
    simp [sanitizeValueGo, hk, if_pos hd1]
  · have hkd : (d - 1).toNat = k := by omega
    rcases Nat.eq_zero_or_pos k with hk0 | hkpos
    · subst hk0
      have hd1 : d ≤ 1 := by omega
      simp [sanitizeValueGo, hk, hobj, if_pos hd1]
    · have hd1 : ¬ d ≤ 1 := by omega
      have hk0 : k ≠ 0 := by omega
      simp [sanitizeValueGo, hk, hobj, if_neg hd1, hkd, hk0]

mutual

/-- Nesting depth of a sanitized value: primitives and placeholder strings
have depth 0, an array or object is one deeper than its deepest child. -/
def sdepth : SValue → Nat
  | .sArr elems => 1 + sdepthList elems
  | .sObj fields => 1 + sdepthFields fields
  | _ => 0

/-- Maximum nesting depth over a list of sanitized values. -/
def sdepthList : List SValue → Nat
  | [] => 0
  | e :: es => max (sdepth e) (sdepthList es)

/-- Maximum nesting depth over sanitized object entries. -/
def sdepthFields : List (String × SValue) → Nat
  | [] => 0
  | kv :: fs => max (sdepth kv.2) (sdepthFields fs)

end

/-- Helper bound: a list whose members all have depth at most `k` has list
depth at most `k`. -/
theorem sdepthList_le {k : Nat} : ∀ (l : List SValue), (∀ e ∈ l, sdepth e ≤ k) →
    sdepthList l ≤ k
  | [], _ => Nat.zero_le k
  | e :: es, hmem => by
    rw [sdepthList]
    exact max_le (hmem e (List.mem_cons_self e es))
      (sdepthList_le es (fun x hx => hmem x (List.mem_cons_of_mem e hx)))

/-- Helper bound: object entries whose values all have depth at most `k`
have entry-list depth at most `k`. -/
theorem sdepthFields_le {k : Nat} : ∀ (fs : List (String × SValue)),
    (∀ kv ∈ fs, sdepth kv.2 ≤ k) → sdepthFields fs ≤ k
  | [], _ => Nat.zero_le k
  | kv :: fs, hmem => by
    rw [sdepthFields]
    exact max_le (hmem kv (List.mem_cons_self kv fs))
      (sdepthFields_le fs (fun x hx => hmem x (List.mem_cons_of_mem kv hx)))

/-- The entries built by `sanitizeEntries` have depth bounded by any bound
on the per-value sanitizer (`k`): the counter key and the error placeholder
are flat strings, every other value comes from `f`. -/
theorem sdepthFields_sanitizeEntries {k : Nat} (f : JSValue → SValue)
    (fields : List (String × PropVal)) (hf : ∀ w, sdepth (f w) ≤ k) :
    sdepthFields (sanitizeEntries f fields) ≤ k := by
  apply sdepthFields_le
  intro kv hkv
  unfold sanitizeEntries at hkv
  rcases List.mem_append.mp hkv with hc | hd
  · split at hc
    · rcases List.mem_singleton.mp hc with rfl
      exact Nat.zero_le k
    · cases hc
  · rcases List.mem_filterMap.mp hd with ⟨ab, _, hab⟩
    split at hab
    · cases hab
    · rcases Option.some.injEq _ _ |>.mp hab with h2
      cases h2
      cases ab.2 with
      | val w => exact hf w
      | throws => exact Nat.zero_le k

/-- Core depth bound: with fuel `k`, the sanitizer's output nests at most
`k` levels, for every heap — cyclic or not. -/
theorem sdepth_sanitizeValueGo (h : Heap) (m : Nat) :
    ∀ (k : Nat) (v : JSValue), sdepth (sanitizeValueGo h m k v) ≤ k := by
  intro k
  induction k with
  | zero => intro v; simp [sanitizeValueGo, sdepth]
  | succ k ih =>
    intro v
    cases v with
    | vNull => simp [sanitizeValueGo, sdepth]
    | vUndefined => simp [sanitizeValueGo, sdepth]
    | vStr s => simp [sanitizeValueGo, sdepth]
    | vNum n => simp [sanitizeValueGo, sdepth]
    | vBool b => simp [sanitizeValueGo, sdepth]
    | vFunc name => simp [sanitizeValueGo, sdepth]
    | vDate iso => simp [sanitizeValueGo, sdepth]
    | vRegExp form => simp [sanitizeValueGo, sdepth]
    | vError msg => simp [sanitizeValueGo, sdepth]
    | vElem tagName => simp [sanitizeValueGo, sdepth]
    | vRef a =>
      rw [sanitizeValueGo]
      cases hcell : h a with
      | arr elems =>
        by_cases hlen : elems.length > MAX_ARRAY_LENGTH
        · simp [hlen, sdepth]
        · simp only [hlen, if_false, sdepth]
          have hbound : sdepthList ((elems.take MAX_ARRAY_LENGTH).map
              (fun e => sanitizeValueGo h m k e)) ≤ k := by
            apply sdepthList_le
            intro e he
            rcases List.mem_map.mp he with ⟨x, _, rfl⟩
            exact ih x
          omega
      | obj fields =>
        by_cases hk0 : k = 0
        · simp [hk0, sdepth]
        · simp only [hk0, if_false, sdepth]
          have hbound := sdepthFields_sanitizeEntries
            (fun w => sanitizeValueGo h m k w) fields (fun w => ih w)
          omega

/-- C1: for every input value — including self-referential (cyclic) objects
and arrays, which the `Heap` model expresses directly — and every integer
depth parameter, `sanitizeValue(value, depth, maxStringLength)` terminates
(it is a total Lean function by construction, with no cycle detection, the
depth fuel being the only recursion control) and returns a finite,
JSON-representable `SValue` tree whose nesting depth does not exceed
`depth` (`depth.toNat` coincides with `depth` whenever `depth ≥ 0`). -/
theorem sanitizeValue_terminates_depth_bounded (h : Heap) (v : JSValue)
    (depth : Int) (maxStringLength : Nat) :
    sdepth (sanitizeValue h v depth maxStringLength) ≤ depth.toNat :=
  sdepth_sanitizeValueGo h maxStringLength depth.toNat v

/-- The self-referential object of the spec example:
`let a = {}; a.self = a` — address 0 holds an object whose single field
`self` references address 0 itself. -/
def cyclicHeap : Heap := fun _ => .obj [("self", .val (.vRef 0))]

/-- C2 counterexample: sanitizing the self-referential object at depth 3
does NOT produce the three-level `{self: {self: {self: "[max depth]"}}}`
claimed by the spec. -/
theorem sanitize_cyclic_depth3_not_three_levels :
    sanitizeValue cyclicHeap (.vRef 0) 3 200 ≠
      .sObj [("self", .sObj [("self", .sObj [("self", .sStr "[max depth]")])])] := by
  have hval : sanitizeValue cyclicHeap (.vRef 0) 3 200 =
      .sObj [("self", .sObj [("self", .sStr "[max depth]")])] := by rfl
  rw [hval]
  simp

/-- C2 amended: sanitizing `let a = {}; a.self = a` at depth 3 yields the
two-level `{self: {self: "[max depth]"}}`: the value-level call burns one
depth unit handing off to `sanitizeObject(a, 2)`, whose per-key recursion
then runs at depths 2 and 1 before `sanitizeObject(a, 0)` stops. -/
theorem sanitize_cyclic_depth3_two_levels :
    sanitizeValue cyclicHeap (.vRef 0) 3 200 =
      .sObj [("self", .sObj [("self", .sStr "[max depth]")])] := by rfl

/-- C5: for an object with `K` enumerable keys sanitized at positive depth,
the result is an object whose data entries number at most
`MAX_OBJECT_KEYS` (20); when `K > MAX_OBJECT_KEYS` one extra `"..."`
counter entry is present (first, per the source's assignment order)
recording exactly `K - MAX_OBJECT_KEYS` omitted keys, and when
`K ≤ MAX_OBJECT_KEYS` no counter entry is added. -/
theorem sanitizeObject_key_cap (h : Heap) (fields : List (String × PropVal))
    (depth : Int) (maxStringLength : Nat) (hd : 0 < depth) :
    ∃ dataEntries : List (String × SValue),
      sanitizeObject h fields depth maxStringLength = .sObj
        ((if fields.length > MAX_OBJECT_KEYS then
            [("...", SValue.sStr
              ("(" ++ toString (fields.length - MAX_OBJECT_KEYS) ++ " more keys)"))]
          else []) ++ dataEntries) ∧
      dataEntries.length ≤ MAX_OBJECT_KEYS := by
  refine ⟨(fields.take MAX_OBJECT_KEYS).filterMap (fun kv =>
    if strStartsWith kv.1 "__" || strStartsWith kv.1 "$$" then none
    else some (kv.1, match kv.2 with
      | .val w => sanitizeValueGo h maxStringLength depth.toNat w
      | .throws => SValue.sStr "[Error reading property]")), ?_, ?_⟩
  · rw [sanitizeObject, if_neg (by omega)]
    rfl
  · calc ((fields.take MAX_OBJECT_KEYS).filterMap _).length
        ≤ (fields.take MAX_OBJECT_KEYS).length := List.length_filterMap_le _ _
      _ ≤ MAX_OBJECT_KEYS := List.length_take_le _ _

/-- C5 witness: a concrete 22-key object sanitized at the default depth. -/
theorem sanitizeObject_key_cap_witness :
    (0 : Int) < 3 ∧
    ∃ dataEntries : List (String × SValue),
      sanitizeObject cyclicHeap
          ((List.range 22).map (fun i => (toString i, PropVal.val .vNull))) 3 200 = .sObj
        ((if ((List.range 22).map (fun i => (toString i, PropVal.val .vNull))).length >
              MAX_OBJECT_KEYS then
            [("...", SValue.sStr
              ("(" ++ toString
                (((List.range 22).map (fun i => (toString i, PropVal.val .vNull))).length -
                  MAX_OBJECT_KEYS) ++ " more keys)"))]
          else []) ++ dataEntries) ∧
      dataEntries.length ≤ MAX_OBJECT_KEYS :=
  ⟨by norm_num, sanitizeObject_key_cap cyclicHeap _ 3 200 (by norm_num)⟩

/-- Truncation is idempotent: re-truncating the (at most
`maxStringLength + 3` character) result of a truncation reproduces it,
because the first `maxStringLength` characters of a truncated string are
exactly the retained prefix. -/
theorem truncateStr_idem (n : Nat) (s : String) :
    truncateStr n (truncateStr n s) = truncateStr n s := by
  by_cases hlen : s.length > n
  · have h1 : truncateStr n s = String.mk (s.data.take n) ++ "..." := by
      rw [truncateStr, if_pos hlen]
    have hdata : (String.mk (s.data.take n) ++ "...").data = s.data.take n ++ "...".data := rfl
    have hsdata : s.length = s.data.length := rfl
    have htake : (s.data.take n).length = n := by
      rw [List.length_take]
      omega
    have hlen2 : (String.mk (s.data.take n) ++ "...").length = n + 3 := by
      show (s.data.take n ++ "...".data).length = n + 3
      rw [List.length_append, htake]
      rfl
    rw [h1, truncateStr, if_pos (by omega : (String.mk (s.data.take n) ++ "...").length > n)]
    rw [hdata, List.take_append_of_le_length (by omega), List.take_take,
      Nat.min_self]
  · have h1 : truncateStr n s = s := by rw [truncateStr, if_neg hlen]
    rw [h1, truncateStr, if_neg hlen]

/-- C10: string sanitization is idempotent.  For every string `s`,
`sanitizeValue` at the default depth and default `maxStringLength` returns
the truncation of `s`, and sanitizing that result again returns the very
same value (for long strings the second pass re-truncates, but the first
200 characters of the truncated string are the retained prefix, so the
value is unchanged). -/
theorem sanitizeValue_string_idempotent (h : Heap) (s : String) :
    sanitizeValue h (.vStr s) MAX_OBJECT_DEPTH MAX_STRING_LENGTH =
      .sStr (truncateStr MAX_STRING_LENGTH s) ∧
    sanitizeValue h (.vStr (truncateStr MAX_STRING_LENGTH s)) MAX_OBJECT_DEPTH
        MAX_STRING_LENGTH =
      sanitizeValue h (.vStr s) MAX_OBJECT_DEPTH MAX_STRING_LENGTH := by
  constructor
  · rfl
  · show SValue.sStr (truncateStr MAX_STRING_LENGTH (truncateStr MAX_STRING_LENGTH s)) =
      SValue.sStr (truncateStr MAX_STRING_LENGTH s)
    rw [truncateStr_idem]

/-!
Session recording (chrome-extension/lib/session-recorder.js, injected page
code).  The session object is a record of buffers; the injected wrappers
mutate it in place.  The wrappers are modelled as state transformers; the
`tracked` flag of a network operation captures the fact that the source
checks `session.isRecording` once, at the start of the instrumented call,
and the completion callbacks append without re-checking.
-/

namespace SessionRecorder

/-- One console log entry (type, message, stack, timestamp). -/
structure ConsoleEntry where
  type : String
  message : String
  stack : Option String
  timestamp : Int
  deriving DecidableEq

/-- One network log entry as built by the fetch/XHR wrappers. -/
structure NetworkEntry where
  url : String
  method : String
  status : Nat
  requestBody : Option String
  responseBody : Option String
  duration : Int
  timestamp : Int
  failed : Bool
  error : Option String
  deriving DecidableEq

/-- One recorded interaction (shape reduced to the fields the claims use). -/
structure InteractionEntry where
  type : String
  target : String
  value : Option String
  timestamp : Int
  deriving DecidableEq

/-- The injected `window.__AI_CONTEXT_SESSION__` state. -/
structure SessionState where
  isRecording : Bool
  sessionId : Option String
  startTime : Option Int
  endTime : Option Int
  consoleLog : List ConsoleEntry
  networkLog : List NetworkEntry
  interactions : List InteractionEntry
  snapshots : List String
  deriving DecidableEq

/-- The page state before any session is started. -/
def initialSession : SessionState :=
  { isRecording := false
    sessionId := none
    startTime := none
    endTime := none
    consoleLog := []
    networkLog := []
    interactions := []
    snapshots := [] }

/-- Session console cap (`var MAX_ENTRIES = 200` in the injector). -/
def MAX_ENTRIES : Nat := 200

/-- Session network cap (the literal `100` in both network append sites). -/
def MAX_NETWORK : Nat := 100

/-- The push-then-evict step used by `captureConsole` and both network
append sites: `push(e); if (length > cap) shift()`. -/
def pushEvict (cap : Nat) (log : List α) (e : α) : List α :=
  let l := log ++ [e]
  if l.length > cap then l.tail else l

/-- `captureConsole(type, args)` (session-recorder.js lines 123-150): no-op
unless recording, otherwise push the entry and evict the oldest once the
cap is exceeded. -/
def captureConsole (s : SessionState) (e : ConsoleEntry) : SessionState :=
  if s.isRecording = false then s
  else { s with consoleLog := pushEvict MAX_ENTRIES s.consoleLog e }

/-- The `window.addEventListener('error', ...)` append (session-recorder.js
lines 161-171): no-op unless recording, then a bare `push` — the source
performs no eviction on this path (`unhandledrejection`, lines 174-192, is
identical in this respect). -/
def windowErrorAppend (s : SessionState) (e : ConsoleEntry) : SessionState :=
  if s.isRecording = false then s
  else { s with consoleLog := s.consoleLog ++ [e] }

/-- `window.__AI_CONTEXT_START_SESSION__` (lines 313-323): set recording,
stamp id and start time, reset all four buffers. -/
def startSession (s : SessionState) (sessionId : String) (now : Int) : SessionState :=
  { s with
    isRecording := true
    sessionId := some sessionId
    startTime := some now
    endTime := none
    consoleLog := []
    networkLog := []
    interactions := []
    snapshots := [] }

/-- `window.__AI_CONTEXT_STOP_SESSION__` (lines 325-339): clear the
recording flag and stamp the end time.  The returned session object carries
`session.consoleLog`, `session.networkLog`, `session.interactions` and
`session.snapshots` by reference — the very arrays this state holds — so
any later append to the state is visible through the returned object. -/
def stopSession (s : SessionState) (now : Int) : SessionState :=
  { s with isRecording := false, endTime := some now }

/-- `response.ok` of the Fetch standard: status in the inclusive range
200-299. -/
def respOk (status : Nat) : Bool := 200 ≤ status && status ≤ 299

/-- The `failed` flag the session fetch wrapper stores on the success path
(line 227): `failed: !response.ok`. -/
def fetchFailedFlag (status : Nat) : Bool := !respOk status

/-- The `failed` flag the XHR `loadend` listener stores (line 301):
`xhr.status === 0 || xhr.status >= 400`.  The Safari content-script XHR
wrapper (content.js line 217) is identical. -/
def xhrFailedFlag (status : Nat) : Bool := status == 0 || 400 ≤ status

/-- Modelled from the spec: `failed` = transport error OR status 0 OR
status ≥ 400 (spec §3 NetworkEntry and claim C7). -/
def specFailed (transportError : Bool) (status : Nat) : Bool :=
  transportError || status == 0 || 400 ≤ status

/-- JavaScript `s.substring(0, n)`: the first `n` characters. -/
def strTake (s : String) (n : Nat) : String := String.mk (s.data.take n)

/-- JavaScript `s.toUpperCase()` on the character-sequence model. -/
def strToUpper (s : String) : String := String.mk (s.data.map Char.toUpper)

/-- The entry the fetch wrapper pushes on the success path
(session-recorder.js lines 217-228): status from the response, `failed:
!response.ok`, `responseBody` still null at push time (filled in later by
the clone read). -/
def fetchResolveEntry (url method : String) (requestBody : Option String)
    (status : Nat) (duration timestamp : Int) : NetworkEntry :=
  { url := strTake url 500
    method := strToUpper method
    status := status
    requestBody := requestBody
    responseBody := none
    duration := duration
    timestamp := timestamp
    failed := fetchFailedFlag status
    error := none }

/-- The entry the fetch wrapper pushes on the rejection path (lines
242-253): status 0, `failed: true`, the error message recorded. -/
def fetchRejectEntry (url method : String) (requestBody : Option String)
    (msg : String) (duration timestamp : Int) : NetworkEntry :=
  { url := strTake url 500
    method := strToUpper method
    status := 0
    requestBody := requestBody
    responseBody := none
    duration := duration
    timestamp := timestamp
    failed := true
    error := some msg }

/-- The entry the XHR `loadend` listener pushes (lines 293-302). -/
def xhrLoadendEntry (url method : String) (requestBody responseBody : Option String)
    (status : Nat) (duration timestamp : Int) : NetworkEntry :=
  { url := strTake url 500
    method := strToUpper method
    status := status
    requestBody := requestBody
    responseBody := responseBody
    duration := duration
    timestamp := timestamp
    failed := xhrFailedFlag status
    error := none }

/-- Whether a fetch/XHR call entering the wrapper is instrumented: the
source tests `session.isRecording` once at call time (lines 197-199 for
fetch, 270-272 for XHR) and returns the original function untouched when
false, so only calls that start while recording ever reach an append. -/
def operationTracked (s : SessionState) : Bool := s.isRecording

/-- Completion of an instrumented fetch success: the `.then` callback
appends (push + evict at 100) with no further `isRecording` test. -/
def fetchOnResolve (s : SessionState) (tracked : Bool) (url method : String)
    (requestBody : Option String) (status : Nat) (duration timestamp : Int) :
    SessionState :=
  if tracked then
    { s with
      networkLog := pushEvict MAX_NETWORK s.networkLog
        (fetchResolveEntry url method requestBody status duration timestamp) }
  else s

/-- Completion of an instrumented fetch rejection: the `.catch` callback
appends with no further `isRecording` test. -/
def fetchOnReject (s : SessionState) (tracked : Bool) (url method : String)
    (requestBody : Option String) (msg : String) (duration timestamp : Int) :
    SessionState :=
  if tracked then
    { s with
      networkLog := pushEvict MAX_NETWORK s.networkLog
        (fetchRejectEntry url method requestBody msg duration timestamp) }
  else s

end SessionRecorder

set_option maxRecDepth 4000 in
open SessionRecorder in
/-- C3 divergence, evaluated: starting from a freshly started session, 201
appends through the `window.error` listener path leave
`consoleLog.length = 201` — the cap of 200 is not enforced there — while
201 appends through the `captureConsole` path leave exactly 200 entries
whose first element is the second entry appended (FIFO eviction), as the
claim demands of every path. -/
theorem consoleLog_error_listener_unbounded :
    (((List.range 201).foldl
        (fun s i => windowErrorAppend s ⟨"error", "boom", none, Int.ofNat i⟩)
        (startSession initialSession "sid" 0)).consoleLog.length = 201 ∧
      ¬ (201 = MAX_ENTRIES)) ∧
    ((List.range 201).foldl
        (fun s i => captureConsole s ⟨"error", "boom", none, Int.ofNat i⟩)
        (startSession initialSession "sid" 0)).consoleLog.length = MAX_ENTRIES ∧
    ((List.range 201).foldl
        (fun s i => captureConsole s ⟨"error", "boom", none, Int.ofNat i⟩)
        (startSession initialSession "sid" 0)).consoleLog.head? =
      some ⟨"error", "boom", none, Int.ofNat 1⟩ := by
  decide

open SessionRecorder in
/-- C6 counterexample: a fetch begins while recording (so it is tracked),
`stop()` then returns the session — whose buffers are the state's own
arrays, not copies — and when the in-flight fetch resolves, its completion
callback appends to `networkLog` with no further `isRecording` check: the
"frozen" session gains an entry after stop. -/
theorem inflight_fetch_appends_after_stop :
    (let s1 := startSession initialSession "sid" 0
     let tracked := operationTracked s1
     let s2 := stopSession s1 10
     let s3 := fetchOnResolve s2 tracked "https://api.test/x" "get" none 200 15 5
     tracked = true ∧ s2.isRecording = false ∧ s2.networkLog.length = 0 ∧
       s3.networkLog.length = 1) := by
  decide

open SessionRecorder in
/-- C6 amended: stopping gates which operations are instrumented, not which
completions append.  A fetch that started while recording still appends its
entry on completion after `stop()` (to the very buffers the returned
session shares), and a fetch that starts when not recording is untracked
and never appends. -/
theorem stop_gates_new_operations_only
    (s : SessionState) (tEnd : Int) (url method : String)
    (requestBody : Option String) (status : Nat) (duration timestamp : Int)
    (hrec : s.isRecording = true) :
    (fetchOnResolve (stopSession s tEnd) (operationTracked s) url method
        requestBody status duration timestamp).networkLog =
      pushEvict MAX_NETWORK s.networkLog
        (fetchResolveEntry url method requestBody status duration timestamp) ∧
    (∀ t : SessionState, t.isRecording = false →
      fetchOnResolve t (operationTracked t) url method requestBody status
        duration timestamp = t) := by
  constructor
  · simp [fetchOnResolve, operationTracked, hrec, stopSession]
  · intro t ht
    simp [fetchOnResolve, operationTracked, ht]

open SessionRecorder in
/-- C6 amended, witness: concrete run of both conjuncts. -/
theorem stop_gates_new_operations_only_witness :
    (startSession initialSession "sid" 0).isRecording = true ∧
    ((fetchOnResolve (stopSession (startSession initialSession "sid" 0) 10)
        (operationTracked (startSession initialSession "sid" 0)) "u" "get" none 200 1
        0).networkLog =
      pushEvict MAX_NETWORK (startSession initialSession "sid" 0).networkLog
        (fetchResolveEntry "u" "get" none 200 1 0) ∧
    (∀ t : SessionState, t.isRecording = false →
      fetchOnResolve t (operationTracked t) "u" "get" none 200 1 0 = t)) :=
  ⟨rfl, stop_gates_new_operations_only (startSession initialSession "sid" 0) 10
    "u" "get" none 200 1 0 rfl⟩

open SessionRecorder in
/-- C7 counterexample: a fetch completing with status 304 (no transport
error, status neither 0 nor ≥ 400) is pushed with `failed = true`, because
the fetch wrapper stores `!response.ok`; the claim's predicate says such an
entry is not failed. -/
theorem fetch_status304_failed_mismatch :
    (fetchResolveEntry "https://api.test/x" "get" none 304 5 0).failed = true ∧
    specFailed false 304 = false := by
  decide

open SessionRecorder in
/-- C7 amended: the XHR path's `failed` flag is exactly the claimed
predicate (status 0 or ≥ 400); the fetch transport-error path always sets
`failed = true` (with status 0, also matching the claim); but the fetch
completion path sets `failed = !response.ok`, i.e. exactly when the status
is outside 200-299 — marking 1xx and 3xx responses failed as well. -/
theorem networkEntry_failed_flag_paths :
    (∀ (status : Nat) (u m : String) (rb rsp : Option String) (d t : Int),
      (xhrLoadendEntry u m rb rsp status d t).failed = specFailed false status) ∧
    (∀ (u m : String) (rb : Option String) (msg : String) (d t : Int),
      (fetchRejectEntry u m rb msg d t).failed = specFailed true 0) ∧
    (∀ (status : Nat) (u m : String) (rb : Option String) (d t : Int),
      (fetchResolveEntry u m rb status d t).failed =
        !(200 ≤ status && status ≤ 299)) := by
  refine ⟨fun status u m rb rsp d t => ?_, fun u m rb msg d t => ?_,
    fun status u m rb d t => ?_⟩
  · rfl
  · rfl
  · rfl

/-!
Interaction recording privacy (chrome-extension/lib/interaction-recorder.js).
The debounced input listener (lines 199-226) and the form-submit listener
(lines 248-280) each compute a captured value; only the value computation
is modelled — the regular-expression tests `/email|phone|ssn|credit|card|cvv|pin/i`
and `/email|phone|ssn|credit|card/i` become case-insensitive substring
tests over the respective word lists.
-/

namespace InteractionRecorder

/-- Substring test on character lists, structural so concrete instances
reduce. -/
def hasSubList (needle : List Char) : List Char → Bool
  | [] => needle.isEmpty
  | c :: rest => needle.isPrefixOf (c :: rest) || hasSubList needle rest

/-- Case-insensitive regex-alternation test: does `s` contain any of the
(lowercase) `words`?  Models `/w1|w2|.../i.test(s)`. -/
def matchesAny (words : List String) (s : String) : Bool :=
  words.any (fun w => hasSubList w.data (strToLower s).data)

/-- The sensitive-keyword alternation of the input listener (line 218):
`/email|phone|ssn|credit|card|cvv|pin/i`. -/
def sensitiveWords : List String :=
  ["email", "phone", "ssn", "credit", "card", "cvv", "pin"]

/-- The sensitive-keyword alternation of the submit listener (line 262):
`/email|phone|ssn|credit|card/i` — note `cvv` and `pin` are absent. -/
def submitSensitiveWords : List String :=
  ["email", "phone", "ssn", "credit", "card"]

/-- The value recorded by the debounced input listener (lines 210-224):
truncate to 97 chars + `'...'` past 100, then replace with `"[masked]"`
when the target's `name` or `id` matches the sensitive pattern and the
value is non-empty.  (Password-typed inputs never reach this point.) -/
def inputCapturedValue (name id value : String) : String :=
  let v := if value.length > 100 then String.mk (value.data.take 97) ++ "..." else value
  let isSensitive := matchesAny sensitiveWords name || matchesAny sensitiveWords id
  if isSensitive && !(v == "") then "[masked]" else v

/-- The value recorded for one named, non-password form field by the submit
listener (lines 256-265): truncate to 47 chars + `'...'` past 50, then mask
when the field's `name` (only) matches the shorter sensitive pattern and
the value is non-empty. -/
def submitCapturedValue (name value : String) : String :=
  let v := if value.length > 50 then String.mk (value.data.take 47) ++ "..." else value
  if matchesAny submitSensitiveWords name && !(v == "") then "[masked]" else v

end InteractionRecorder

open InteractionRecorder in
/-- C8 counterexample: a form field named `cvv` matches the claim's
sensitive pattern, yet on submit its value is recorded raw — the submit
listener's alternation omits `cvv` (and `pin`). -/
theorem submit_cvv_not_masked :
    matchesAny sensitiveWords "cvv" = true ∧
    submitCapturedValue "cvv" "123" = "123" ∧
    ¬ ("123" = "[masked]") := by
  decide

/-- A string obtained by appending `"..."` is never empty. -/
theorem mk_append_dots_ne_empty (l : List Char) : ¬ (String.mk l ++ "..." = "") := by
  intro hcontra
  have hdata : l ++ "...".data = ([] : List Char) := congrArg String.data hcontra
  simp at hdata

open InteractionRecorder in
/-- C8 amended: the input path masks every non-empty value of a field whose
`name` or `id` matches the full seven-word sensitive pattern (in particular
the spec's example, `name = "email"`, value `"a@b.com"`); the submit path
masks only non-empty values of fields whose `name` matches the five-word
pattern without `cvv`/`pin`. -/
theorem sensitive_fields_masked
    (name id value : String)
    (hmatch : (matchesAny sensitiveWords name || matchesAny sensitiveWords id) = true)
    (hval : ¬ (value = "")) :
    inputCapturedValue name id value = "[masked]" ∧
    inputCapturedValue "email" "" "a@b.com" = "[masked]" ∧
    (∀ fieldName fieldValue : String,
      matchesAny submitSensitiveWords fieldName = true → ¬ (fieldValue = "") →
      submitCapturedValue fieldName fieldValue = "[masked]") := by
  refine ⟨?_, by decide, ?_⟩
  · rw [inputCapturedValue]
    have hv : ¬ ((if value.length > 100 then String.mk (value.data.take 97) ++ "..."
        else value) = "") := by
      split
      · exact mk_append_dots_ne_empty _
      · exact hval
    simp only [hmatch, Bool.true_and, beq_eq_false_iff_ne, ne_eq]
    rw [if_pos]
    simp [hv]
  · intro fieldName fieldValue hm hv0
    rw [submitCapturedValue]
    have hv : ¬ ((if fieldValue.length > 50 then String.mk (fieldValue.data.take 47) ++ "..."
        else fieldValue) = "") := by
      split
      · exact mk_append_dots_ne_empty _
      · exact hv0
    simp only [hm, Bool.true_and]
    rw [if_pos]
    simp [hv]

open InteractionRecorder in
/-- C8 amended, witness: concrete instantiation at the spec's own example
(`name = "email"`, value `"a@b.com"`). -/
theorem sensitive_fields_masked_witness :
    ((matchesAny sensitiveWords "email" || matchesAny sensitiveWords "") = true ∧
      ¬ ("a@b.com" = "")) ∧
    (inputCapturedValue "email" "" "a@b.com" = "[masked]" ∧
      inputCapturedValue "email" "" "a@b.com" = "[masked]" ∧
      (∀ fieldName fieldValue : String,
        matchesAny submitSensitiveWords fieldName = true → ¬ (fieldValue = "") →
        submitCapturedValue fieldName fieldValue = "[masked]")) :=
  ⟨⟨by decide, by decide⟩,
    sensitive_fields_masked "email" "" "a@b.com" (by decide) (by decide)⟩

/-!
Developer-declared context (safari content.js, `extractElementData` lines
1486-1500).  After structural introspection fills `data.component`, a
`data-ai-context` attribute holding JSON is parsed; the parse outcome is
modelled as data (`absent` / `malformed` / `parsed`), and JavaScript string
truthiness (null/undefined/empty all falsy) as a test on `Option String`.
-/

namespace SafariContent

/-- The `name`/`file` half of `ComponentInfo` — the only fields the
developer-context merge reads or writes. -/
structure ComponentData where
  name : Option String
  file : Option String
  deriving DecidableEq

/-- Outcome of `JSON.parse` on the `data-ai-context` attribute value. -/
inductive DevContextAttr where
  | absent
  | malformed
  | parsed (component : Option String) (file : Option String)
  deriving DecidableEq

/-- JavaScript truthiness of a string-or-missing value. -/
def jsTruthy : Option String → Bool
  | none => false
  | some s => !(s == "")

/-- The merge from content.js lines 1489-1498:
`if (ctx.component && !component.name) component.name = ctx.component;`
then `if (ctx.file) component.file = ctx.file;` — malformed JSON is caught
by the inner try/catch and the component left untouched. -/
def applyDeveloperContext (c : ComponentData) (attr : DevContextAttr) : ComponentData :=
  match attr with
  | .absent => c
  | .malformed => c
  | .parsed component file =>
    let c1 := if jsTruthy component && !(jsTruthy c.name) then { c with name := component }
      else c
    if jsTruthy file then { c1 with file := file } else c1

end SafariContent

open SafariContent in
/-- C9 counterexample: introspection detected both a component name and a
source file, yet a declared `file` in `data-ai-context` replaces the
detected file — the merge guards only the `name` assignment with
`!component.name`, not the `file` assignment. -/
theorem developer_file_overrides_detected :
    applyDeveloperContext ⟨some "Widget", some "src/Widget.jsx"⟩
        (.parsed (some "Declared") (some "docs/Declared.js")) =
      ⟨some "Widget", some "docs/Declared.js"⟩ ∧
    ¬ ((applyDeveloperContext ⟨some "Widget", some "src/Widget.jsx"⟩
        (.parsed (some "Declared") (some "docs/Declared.js"))).file =
      some "src/Widget.jsx") := by
  decide

open SafariContent in
/-- C9 amended: a missing or malformed attribute leaves the component
untouched (malformed JSON never fails the capture); a declared `component`
fills only a name introspection left null/empty; but a declared truthy
`file` always overrides, detected or not, and only a falsy declared `file`
preserves the introspected one. -/
theorem developer_context_merge_behaviour
    (c : SafariContent.ComponentData) (component file : Option String)
    (hname : SafariContent.jsTruthy c.name = true) :
    applyDeveloperContext c .absent = c ∧
    applyDeveloperContext c .malformed = c ∧
    (applyDeveloperContext c (.parsed component file)).name = c.name ∧
    (∀ c2 : SafariContent.ComponentData, SafariContent.jsTruthy c2.name = false →
      jsTruthy component = true →
      (applyDeveloperContext c2 (.parsed component file)).name = component) ∧
    (jsTruthy file = true →
      (applyDeveloperContext c (.parsed component file)).file = file) ∧
    (jsTruthy file = false →
      (applyDeveloperContext c (.parsed component file)).file = c.file) := by
  refine ⟨rfl, rfl, ?_, ?_, ?_, ?_⟩
  · rw [applyDeveloperContext]
    simp only [hname, Bool.not_true, Bool.and_false, if_false]
    split <;> rfl
  · intro c2 h2 hc
    rw [applyDeveloperContext]
    simp only [h2, Bool.not_false, hc, Bool.and_true, if_true]
    split <;> rfl
  · intro hf
    rw [applyDeveloperContext]
    simp only [hf, if_true]
  · intro hf
    rw [applyDeveloperContext]
    simp only [hf, Bool.false_eq_true, if_false]
    split <;> rfl

open SafariContent in
/-- C9 amended, witness: concrete instantiation with a detected name and a
declared context. -/
theorem developer_context_merge_behaviour_witness :
    SafariContent.jsTruthy (SafariContent.ComponentData.mk (some "Widget") none).name = true ∧
    (applyDeveloperContext ⟨some "Widget", none⟩ .absent = ⟨some "Widget", none⟩ ∧
      applyDeveloperContext ⟨some "Widget", none⟩ .malformed = ⟨some "Widget", none⟩ ∧
      (applyDeveloperContext ⟨some "Widget", none⟩
        (.parsed (some "Declared") (some "docs/D.js"))).name = (some "Widget") ∧
      (∀ c2 : SafariContent.ComponentData, SafariContent.jsTruthy c2.name = false →
        jsTruthy (some "Declared") = true →
        (applyDeveloperContext c2 (.parsed (some "Declared") (some "docs/D.js"))).name =
          some "Declared") ∧
      (jsTruthy (some "docs/D.js") = true →
        (applyDeveloperContext ⟨some "Widget", none⟩
          (.parsed (some "Declared") (some "docs/D.js"))).file = some "docs/D.js") ∧
      (jsTruthy (some "docs/D.js") = false →
        (applyDeveloperContext ⟨some "Widget", none⟩
          (.parsed (some "Declared") (some "docs/D.js"))).file =
          (SafariContent.ComponentData.mk (some "Widget") none).file)) :=
  ⟨by decide, developer_context_merge_behaviour ⟨some "Widget", none⟩
    (some "Declared") (some "docs/D.js") (by decide)⟩

/-!
CSS selector derivation.  Two distinct implementations exist: the chrome
shared-utils `getCssSelector` (constants.js module lines 176-216), which
always walks the whole `parentElement` chain emitting
`tag[#id][.classes][:nth-of-type(k)]` segments, and the Safari content.js
`getCssSelector` (lines 1516-1567), which walks at most
`MAX_SELECTOR_DEPTH` levels below `body`, emits `tag[:nth-of-type(k)]`
segments, and breaks with a bare `#id` segment when it meets an element
whose id matches `/^[a-zA-Z][a-zA-Z0-9_-]*$/`.

A DOM element is a node of the `ENode` tree; an element in context is the
node plus its ancestor chain `ups`, each entry `(i, p)` recording the
parent node `p` and the index `i` of the descended child within
`p.children` (that index stands for JavaScript's identity-based
`siblings.indexOf(current)`).  For the Safari walk the chain ends below
`body`, matching the source's break on `document.body` /
`document.documentElement`.
-/

/-- An element of the DOM tree: `tagName` as the DOM reports it (uppercase
for HTML elements), the `id` attribute (empty when absent), the raw class
string, and the child elements in document order. -/
structure ENode where
  tag : String
  idAttr : String
  className : String
  children : List ENode

/-- Whitespace-splitting worker over characters (accumulator holds the
current word reversed). -/
def splitWsGo : List Char → List Char → List (List Char)
  | acc, [] => if acc.isEmpty then [] else [acc.reverse]
  | acc, c :: rest =>
    if c.isWhitespace then
      if acc.isEmpty then splitWsGo [] rest else acc.reverse :: splitWsGo [] rest
    else splitWsGo (c :: acc) rest

/-- `className.trim().split(/\s+/).filter(c => c)`: the non-empty
whitespace-separated class names. -/
def splitClasses (className : String) : List String :=
  (splitWsGo [] className.data).map String.mk

/-- `Array.prototype.join(sep)` on the list model. -/
def joinSep (sep : String) : List String → String
  | [] => ""
  | [x] => x
  | x :: y :: rest => x ++ sep ++ joinSep sep (y :: rest)

/-- The `.class1.class2` selector fragment (empty when the element has no
usable classes, which also covers the falsy-`className` guard). -/
def classSelectorPart (className : String) : String :=
  let classes := splitClasses className
  if classes.length > 0 then "." ++ joinSep "." classes else ""

/-- The `:nth-of-type(k)` fragment: among the parent's children of the same
tag, emitted only when there is more than one, with the 1-based position of
the child at index `i`. -/
def nthOfTypePart (n : ENode) (parentChildren : List ENode) (i : Nat) : String :=
  let siblings := parentChildren.filter (fun c => c.tag == n.tag)
  if siblings.length > 1 then
    ":nth-of-type(" ++ toString ((parentChildren.take i).countP (fun c => c.tag == n.tag) + 1)
      ++ ")"
  else ""

namespace SharedUtils

/-- One level's selector in the chrome shared-utils walk:
`tagName.toLowerCase()`, then `#id` when the id is truthy, then the class
chain, then `:nth-of-type` disambiguation when a parent exists. -/
def chromeSegment (n : ENode) (parent : Option (List ENode × Nat)) : String :=
  strToLower n.tag
    ++ (if !(n.idAttr == "") then "#" ++ n.idAttr else "")
    ++ classSelectorPart n.className
    ++ (match parent with
        | none => ""
        | some (cs, i) => nthOfTypePart n cs i)

/-- The segments of the chrome walk, leaf first (the source `unshift`s each
segment and ascends until `parentElement` is null). -/
def chromeParts : ENode → List (Nat × ENode) → List String
  | n, [] => [chromeSegment n none]
  | n, (i, p) :: rest => chromeSegment n (some (p.children, i)) :: chromeParts p rest

/-- `getCssSelector(el)` from the chrome shared-utils module (constants.js
module lines 176-216): the full ancestor path joined with `' > '`.  There
is no id short-circuit in this variant. -/
def getCssSelector (n : ENode) (ups : List (Nat × ENode)) : String :=
  joinSep " > " (chromeParts n ups).reverse

end SharedUtils

/-- ASCII letter test, as in the source's `[a-zA-Z]`. -/
def isAsciiAlpha (c : Char) : Bool :=
  ('a' ≤ c && c ≤ 'z') || ('A' ≤ c && c ≤ 'Z')

/-- ASCII digit test, as in the source's `[0-9]`. -/
def isAsciiDigit (c : Char) : Bool := '0' ≤ c && c ≤ '9'

/-- The Safari id gate (content.js line 1539):
`el.id && /^[a-zA-Z][a-zA-Z0-9_-]*$/.test(el.id)`. -/
def validIdFormat (s : String) : Bool :=
  match s.data with
  | [] => false
  | c :: rest => isAsciiAlpha c && rest.all (fun d =>
      isAsciiAlpha d || isAsciiDigit d || d == '_' || d == '-')

namespace SafariContent

/-- The segments of the Safari walk, leaf first: stop past
`MAX_SELECTOR_DEPTH` (10) levels, emit a bare `#id` and stop on a
valid-format id, otherwise emit `tag[:nth-of-type(k)]` and ascend; the
chain ending models the break at `document.body`/`document.documentElement`
or a null parent. -/
def safariParts (n : ENode) (ups : List (Nat × ENode)) (depth : Nat) : List String :=
  if depth ≥ 10 then []
  else if validIdFormat n.idAttr then ["#" ++ n.idAttr]
  else match ups with
    | [] => [strToLower n.tag]
    | (i, p) :: rest =>
      (strToLower n.tag ++ nthOfTypePart n p.children i) :: safariParts p rest (depth + 1)

/-- `getCssSelector(element)` from safari content.js lines 1516-1567:
join the collected parts root-first with `' > '`, falling back to the bare
lowercased tag name when the walk produced nothing. -/
def getCssSelector (n : ENode) (ups : List (Nat × ENode)) : String :=
  let s := joinSep " > " (safariParts n ups 0).reverse
  if s == "" then strToLower n.tag else s

end SafariContent

mutual

/-- All elements of a DOM tree in document (pre-)order. -/
def allNodes : ENode → List ENode
  | .mk tag idAttr className children =>
    .mk tag idAttr className children :: allNodesList children

/-- All elements of a forest in document order. -/
def allNodesList : List ENode → List ENode
  | [] => []
  | e :: es => allNodes e ++ allNodesList es

end

/-- `document.querySelector('#' + id)`: the first element in document order
whose id attribute is the requested one. -/
def querySelectorById (doc : ENode) (idStr : String) : Option ENode :=
  (allNodes doc).find? (fun n => n.idAttr == idStr)

/-- When filtering leaves exactly one element, `find?` returns it. -/
theorem find?_of_filter_singleton (p : α → Bool) :
    ∀ (l : List α) (a : α), l.filter p = [a] → l.find? p = some a := by
  intro l
  induction l with
  | nil => intro a ha; simp at ha
  | cons x xs ih =>
    intro a ha
    cases hp : p x with
    | true =>
      rw [List.filter_cons_of_pos hp] at ha
      rcases List.cons_eq_cons.mp ha with ⟨rfl, hrest⟩
      rw [List.find?_cons_of_pos _ hp]
    | false =>
      rw [List.filter_cons_of_neg (by simp [hp])] at ha
      rw [List.find?_cons_of_neg _ (by simp [hp])]
      exact ih a ha

/-- C4 counterexample: the chrome shared-utils `getCssSelector` never
returns a bare `'#' + id` — even for a lone element with an id it emits the
tag-prefixed `button#submit`; and the Safari variant short-circuits only
for ids matching its format gate, so an element with the unique id `1a`
yields `div`, not `#1a`. -/
theorem getCssSelector_unique_id_not_bare :
    SharedUtils.getCssSelector ⟨"BUTTON", "submit", "", []⟩ [] = "button#submit" ∧
    ¬ (SharedUtils.getCssSelector ⟨"BUTTON", "submit", "", []⟩ [] = "#" ++ "submit") ∧
    SafariContent.getCssSelector ⟨"DIV", "1a", "", []⟩ [] = "div" ∧
    ¬ (SafariContent.getCssSelector ⟨"DIV", "1a", "", []⟩ [] = "#" ++ "1a") := by
  refine ⟨by decide, by decide, by decide, by decide⟩

/-- C4 amended: in the Safari variant, any element whose id matches the
format gate `^[a-zA-Z][a-zA-Z0-9_-]*$` short-circuits to exactly
`'#' + id`, whatever its ancestry; and when that id is unique in the
document (the filter by id leaves exactly that element),
`document.querySelector('#' + id)` returns the element again.  The chrome
shared-utils variant instead always emits the full tag-prefixed ancestor
path. -/
theorem safari_id_shortcircuits_and_roundtrips
    (n : ENode) (ups : List (Nat × ENode)) (doc el : ENode) (idStr : String)
    (hvalid : validIdFormat n.idAttr = true)
    (hunique : (allNodes doc).filter (fun m => m.idAttr == idStr) = [el]) :
    SafariContent.getCssSelector n ups = "#" ++ n.idAttr ∧
    querySelectorById doc idStr = some el := by
  constructor
  · have hparts : SafariContent.safariParts n ups 0 = ["#" ++ n.idAttr] := by
      unfold SafariContent.safariParts
      rw [if_neg (by decide), if_pos hvalid]
    have hne : ¬ ("#" ++ n.idAttr = "") := by
      intro hcontra
      have hdata : "#".data ++ n.idAttr.data = ([] : List Char) :=
        congrArg String.data hcontra
      simp at hdata
    rw [SafariContent.getCssSelector, hparts]
    simp only [List.reverse_cons, List.reverse_nil, List.nil_append, joinSep]
    rw [if_neg (by simp [hne])]
  · exact find?_of_filter_singleton _ (allNodes doc) el hunique

/-- C4 amended, witness: a `button#submit` inside `body`, with `submit`
unique in the document. -/
theorem safari_id_shortcircuits_and_roundtrips_witness :
    (validIdFormat (ENode.mk "BUTTON" "submit" "" []).idAttr = true ∧
      (allNodes (ENode.mk "BODY" "" "" [ENode.mk "BUTTON" "submit" "" []])).filter
        (fun m => m.idAttr == "submit") = [ENode.mk "BUTTON" "submit" "" []]) ∧

    (SafariContent.getCssSelector (ENode.mk "BUTTON" "submit" "" [])
        [(0, ENode.mk "BODY" "" "" [ENode.mk "BUTTON" "submit" "" []])] =
      "#" ++ (ENode.mk "BUTTON" "submit" "" []).idAttr ∧
    querySelectorById (ENode.mk "BODY" "" "" [ENode.mk "BUTTON" "submit" "" []]) "submit" =
      some (ENode.mk "BUTTON" "submit" "" [])) :=
  ⟨⟨by decide, by rfl⟩,
    safari_id_shortcircuits_and_roundtrips (ENode.mk "BUTTON" "submit" "" [])
      [(0, ENode.mk "BODY" "" "" [ENode.mk "BUTTON" "submit" "" []])]
      (ENode.mk "BODY" "" "" [ENode.mk "BUTTON" "submit" "" []])
      (ENode.mk "BUTTON" "submit" "" []) "submit" (by decide) (by rfl)⟩
